import Mathlib

/-!
Verification of the xml-to-csv conversion service.

The JavaScript source (src/api/controllers/ConverterController.js and the
two unnamed controller files) manipulates parsed JSON-like values.  We embed
that value universe as a mutual inductive type `GenericValue` (JavaScript
numbers are embedded as integers; none of the verified properties depends on
float-specific behaviour), with `GVList` for arrays and `GVEntries` for the
ordered key/value entries of an object.  JavaScript objects never hold two
entries with the same key, so an entry list stands for an object read in
`Object.entries` iteration order.
-/

mutual

/-- A JavaScript value as produced by JSON.parse / xml2js: null, boolean,
number, string, array, or object. -/
inductive GenericValue : Type where
  | null : GenericValue
  | boolV : Bool → GenericValue
  | num : Int → GenericValue
  | str : String → GenericValue
  | arr : GVList → GenericValue
  | obj : GVEntries → GenericValue

/-- An ordered sequence of generic values (a JavaScript array). -/
inductive GVList : Type where
  | nil : GVList
  | cons : GenericValue → GVList → GVList

/-- The ordered entries of a JavaScript object, in iteration order. -/
inductive GVEntries : Type where
  | nil : GVEntries
  | cons : String → GenericValue → GVEntries → GVEntries

end

/-- Length of a value list. -/
def GVList.length : GVList → Nat
  | .nil => 0
  | .cons _ xs => xs.length + 1

/-- Map a function over a value list, preserving order. -/
def GVList.map (f : GenericValue → GenericValue) : GVList → GVList
  | .nil => .nil
  | .cons x xs => .cons (f x) (GVList.map f xs)

/-- Map a function over the values of an entry list, keeping keys and order. -/
def GVEntries.mapVals (f : GenericValue → GenericValue) : GVEntries → GVEntries
  | .nil => .nil
  | .cons k v es => .cons k (f v) (GVEntries.mapVals f es)

/-- Remove every entry carrying the given key. -/
def GVEntries.eraseKey (k : String) : GVEntries → GVEntries
  | .nil => .nil
  | .cons k2 v es =>
    if k2 = k then GVEntries.eraseKey k es
    else .cons k2 v (GVEntries.eraseKey k es)

/-- Property lookup on an object: the value at the first entry with the given
key, if any (JavaScript `acc[key]` on a plain object). -/
def lookupEntry : GVEntries → String → Option GenericValue
  | .nil, _ => none
  | .cons k2 v es, k => if k2 = k then some v else lookupEntry es k

/-- JavaScript assignment `result[key] = v` on an object: if the key is
present its value is updated in place (the entry keeps its position),
otherwise a new entry is appended at the end. -/
def setKey : GVEntries → String → GenericValue → GVEntries
  | .nil, k, v => .cons k v .nil
  | .cons k2 v2 es, k, v =>
    if k2 = k then .cons k2 v es else .cons k2 v2 (setKey es k v)

/-- Every value of the entry list satisfies the boolean test. -/
def allVals (p : GenericValue → Bool) : GVEntries → Bool
  | .nil => true
  | .cons _ v es => p v && allVals p es

mutual

/-- Translation of `cleanJson` (ConverterController.js lines 11-26).
Arrays of exactly one element are replaced by the cleaning of that element;
other arrays are mapped over.  For objects, the source loops over
`Object.entries(obj)`, skips the key "$" and assigns `cleaned[key] =
cleanJson(value)` into a fresh object; since the keys of a JavaScript object
are pairwise distinct, each assignment appends a fresh key, which the
embedding renders by rebuilding the entry list in order without the "$"
entries.  Scalars and null are returned unchanged. -/
def cleanJson : GenericValue → GenericValue
  | .arr (.cons x .nil) => cleanJson x
  | .arr xs => .arr (cleanList xs)
  | .obj es => .obj (cleanEntries es)
  | v => v

/-- The `obj.map(cleanJson)` branch of `cleanJson` for arrays. -/
def cleanList : GVList → GVList
  | .nil => .nil
  | .cons x xs => .cons (cleanJson x) (cleanList xs)

/-- The entry loop of `cleanJson` for objects: skip "$", clean each value. -/
def cleanEntries : GVEntries → GVEntries
  | .nil => .nil
  | .cons k v es =>
    if k = "$" then cleanEntries es
    else .cons k (cleanJson v) (cleanEntries es)

end

mutual

/-- Translation of `flattenJson` (ConverterController.js lines 41-51): loop
over the entries of `data` in order, extending the shared accumulator
`result`. -/
def flattenEntries : GVEntries → String → GVEntries → GVEntries
  | .nil, _, result => result
  | .cons k v es, parentKey, result =>
    flattenEntries es parentKey
      (flattenStep v (if parentKey = "" then k else parentKey ++ "/" ++ k) result)

/-- One iteration of the `flattenJson` loop, after the new key has been
computed: `typeof value === "object" && !Array.isArray(value) && value !==
null` holds exactly for object values, which are recursed into; every other
value (scalar, null or array) is assigned to `result[newKey]` as-is. -/
def flattenStep : GenericValue → String → GVEntries → GVEntries
  | .obj inner, newKey, result => flattenEntries inner newKey result
  | v, newKey, result => setKey result newKey v

end

/-- Flattening of an object from the top: `flattenJson(data)` with the
default parameters `parentKey = ""` and `result = {}`. -/
def flattenMap (es : GVEntries) : GVEntries :=
  flattenEntries es "" .nil

/-- JavaScript truthiness of an embedded value: null, false, 0 and "" are
falsy, every other value (arrays and objects always) is truthy. -/
def truthy : GenericValue → Bool
  | .null => false
  | .boolV b => b
  | .num n => n != 0
  | .str s => s != ""
  | .arr _ => true
  | .obj _ => true

/-- Decimal value of a digit list, or none when a non-digit occurs. -/
def parseDigits : List Char → Nat → Option Nat
  | [], acc => some acc
  | c :: cs, acc =>
    if c.isDigit then parseDigits cs (acc * 10 + (c.toNat - 48)) else none

/-- The canonical array index denoted by a key string, if any: a non-empty
all-digit numeral without a leading zero (or "0" itself).  JavaScript reads
`xs["0"]` as element 0, but a non-canonical numeral such as "01" is an
ordinary (absent) property. -/
def toArrayIndex (k : String) : Option Nat :=
  match k.data with
  | [] => none
  | c :: cs =>
    if c = '0' then (if cs = [] then some 0 else none)
    else parseDigits (c :: cs) 0

/-- Element of a value list at an index. -/
def GVList.getIdx : GVList → Nat → Option GenericValue
  | .nil, _ => none
  | .cons x _, 0 => some x
  | .cons _ xs, n + 1 => xs.getIdx n

/-- JavaScript property access `acc[key]` on an embedded value, restricted to
own data properties: key lookup on objects, canonical index or "length" on
arrays and strings, and nothing on null, booleans or numbers.  (Properties
inherited from prototypes are outside the data model.) -/
def getProp : GenericValue → String → Option GenericValue
  | .obj es, k => lookupEntry es k
  | .arr xs, k =>
    if k = "length" then some (.num xs.length)
    else
      match toArrayIndex k with
      | some i => xs.getIdx i
      | none => none
  | .str s, k =>
    if k = "length" then some (.num s.length)
    else
      match toArrayIndex k with
      | some i => (s.data.get? i).map (fun c => .str (String.singleton c))
      | none => none
  | _, _ => none

/-- Splitting loop for `splitDots`, accumulating the current segment. -/
def splitDotsAux : List Char → String → List String
  | [], cur => [cur]
  | c :: cs, cur =>
    if c = '.' then cur :: splitDotsAux cs "" else splitDotsAux cs (cur.push c)

/-- JavaScript `path.split(".")`: the dot-separated segments of the string,
with empty segments preserved; the empty string splits to [""]. -/
def splitDots (s : String) : List String :=
  splitDotsAux s.data ""

/-- One step of the path-selection reduce (ConverterController.js lines
135-139): `(acc, key) => (acc && acc[key] ? acc[key] : null)`.  A missing
property reads as undefined, which the ternary turns into null. -/
def selectStep (acc : GenericValue) (k : String) : GenericValue :=
  if truthy acc then
    match getProp acc k with
    | some v => if truthy v then v else .null
    | none => .null
  else .null

/-- Translation of the selection in `jsonToCsv` and `convert`:
`jsonPath.split(".").reduce(selectStep, root)`. -/
def selectPath (root : GenericValue) (path : String) : GenericValue :=
  (splitDots path).foldl selectStep root

/-- One step of the selection walk as the spec describes it: descend only
when the current value is a mapping holding a non-falsy value at the key.
Written from the claim wording, to be compared with `selectStep`. -/
def claimStep (acc : GenericValue) (k : String) : GenericValue :=
  match acc with
  | .obj es =>
    match lookupEntry es k with
    | some v => if truthy v then v else .null
    | none => .null
  | _ => .null

/-- Selection as the spec describes it: fold `claimStep` over the segments,
with absence rendered as null exactly as in the code. -/
def claimSelect (root : GenericValue) (path : String) : GenericValue :=
  (splitDots path).foldl claimStep root

/-- Explicit recursion equivalent to the `reduce` of the source, used to
state the segment-by-segment description of the selection walk. -/
def selectGo : GenericValue → List String → GenericValue
  | acc, [] => acc
  | acc, k :: rest =>
    if truthy acc then
      match getProp acc k with
      | some v => selectGo (if truthy v then v else .null) rest
      | none => selectGo .null rest
    else selectGo .null rest

mutual

/-- No object entry anywhere in the value carries the attribute-marker key
"$". -/
def noDollarV : GenericValue → Bool
  | .arr xs => noDollarL xs
  | .obj es => noDollarE es
  | _ => true

/-- All elements of the list are free of the "$" key. -/
def noDollarL : GVList → Bool
  | .nil => true
  | .cons x xs => noDollarV x && noDollarL xs

/-- No entry key is "$", and all entry values are free of the "$" key. -/
def noDollarE : GVEntries → Bool
  | .nil => true
  | .cons k v es => (k != "$") && noDollarV v && noDollarE es

end

mutual

/-- No single-element array occurs anywhere in the value. -/
def noSingleV : GenericValue → Bool
  | .arr xs => (xs.length != 1) && noSingleL xs
  | .obj es => noSingleE es
  | _ => true

/-- All elements of the list are free of single-element arrays. -/
def noSingleL : GVList → Bool
  | .nil => true
  | .cons x xs => noSingleV x && noSingleL xs

/-- All entry values are free of single-element arrays. -/
def noSingleE : GVEntries → Bool
  | .nil => true
  | .cons _ v es => noSingleV v && noSingleE es

end

mutual

/-- Collapse every single-element array to (the collapse of) its element,
leaving keys and every other constructor untouched.  This is the structural
change the spec allows `cleanJson` on values without the "$" key. -/
def collapseV : GenericValue → GenericValue
  | .arr (.cons x .nil) => collapseV x
  | .arr xs => .arr (collapseL xs)
  | .obj es => .obj (collapseE es)
  | v => v

/-- Collapse single-element arrays in every element of the list. -/
def collapseL : GVList → GVList
  | .nil => .nil
  | .cons x xs => .cons (collapseV x) (collapseL xs)

/-- Collapse single-element arrays in every entry value. -/
def collapseE : GVEntries → GVEntries
  | .nil => .nil
  | .cons k v es => .cons k (collapseV v) (collapseE es)

end

/-- The value is an object (a mapping). -/
def isObjB : GenericValue → Bool
  | .obj _ => true
  | _ => false

/-- The value is a container: an array or an object. -/
def isContainerB : GenericValue → Bool
  | .arr _ => true
  | .obj _ => true
  | _ => false

/-- The value is an array (`Array.isArray`). -/
def isArrB : GenericValue → Bool
  | .arr _ => true
  | _ => false

/-- Index/value entries of an array from a starting index, as
`Object.entries` enumerates an array. -/
def indexEntries : GVList → Nat → GVEntries
  | .nil, _ => .nil
  | .cons x xs, i => .cons (toString i) x (indexEntries xs (i + 1))

/-- Index/character entries of a string, as `Object.entries` enumerates a
string: each character becomes a one-character string value. -/
def charEntries : List Char → Nat → GVEntries
  | [], _ => .nil
  | c :: cs, i => .cons (toString i) (.str (String.singleton c)) (charEntries cs (i + 1))

/-- The call `flattenJson(item)` on an arbitrary array element: the loop
enumerates `Object.entries(item)`, which lists the entries of an object, the
indexed elements of an array, the indexed characters of a string, and
nothing for a number or boolean; on null it throws a TypeError, which the
surrounding try/catch of the handler turns into a 500 response. -/
def flattenAnyTop : GenericValue → Except String GVEntries
  | .null => .error "Cannot convert undefined or null to object"
  | .obj es => .ok (flattenEntries es "" .nil)
  | .arr xs => .ok (flattenEntries (indexEntries xs 0) "" .nil)
  | .str s => .ok (flattenEntries (charEntries s.data 0) "" .nil)
  | _ => .ok .nil

/-- The handler step `dataToConvert.map((item) => flattenJson(item))`: one
flat row per element in order, aborting at the first element the flattening
throws on. -/
def flattenItems : GVList → Except String (List GVEntries)
  | .nil => .ok []
  | .cons x xs =>
    match flattenAnyTop x with
    | .error e => .error e
    | .ok row => (flattenItems xs).map (fun rows => row :: rows)

/-- Falsiness of an optional request string (`!filename`, `jsonPath ? _ : _`):
an absent field or the empty string is falsy. -/
def strFalsy : Option String → Bool
  | none => true
  | some s => s = ""

/-- An HTTP response: the 200 body, or one of the three error classes
(res.badRequest is 400, res.notFound is 404, res.serverError is 500). -/
inductive Response : Type where
  | ok : String → Response
  | badRequest : String → Response
  | notFound : String → Response
  | serverError : String → String → Response

/-- The response is the success response. -/
def Response.isOk : Response → Bool
  | .ok _ => true
  | _ => false

/-- A file write performed by a handler: the pretty-printed cleaned JSON
written to the JSON output directory, or CSV text written to the CSV output
directory. -/
inductive WriteEvent : Type where
  | jsonOut : GenericValue → WriteEvent
  | csvOut : String → WriteEvent

/-- The write targets the JSON output directory. -/
def WriteEvent.isJsonOut : WriteEvent → Bool
  | .jsonOut _ => true
  | .csvOut _ => false

/-- The external collaborators of one request, fixed before the handler
runs: whether the input file exists, the outcome of parsing its text (XML
via xml2js or JSON via JSON.parse, per handler), and the json2csv
serializer applied to the flat rows.  File writes are modelled as always
succeeding; parsing and CSV serialization are the fallible collaborators. -/
structure ExtWorld : Type where
  fileExists : Bool
  parsed : Except String GenericValue
  csvSerialize : List GVEntries → Except String String

/-- The 400 message `The specified JSON path '${jsonPath}' does not exist.`;
a template literal renders an undefined jsonPath as the text "undefined". -/
def pathMissingMsg : Option String → String
  | none => "The specified JSON path 'undefined' does not exist."
  | some p => "The specified JSON path '" ++ p ++ "' does not exist."

/-- The 400 message for a non-array selection. -/
def notArrayMsg : String :=
  "The selected JSON data is not an array and cannot be converted to CSV."

/-- Translation of the `xmlToJson` handler (ConverterController.js lines
58-105): validate the filename, locate the file, parse the XML, clean the
tree, write the pretty-printed result to the JSON directory and answer 200;
each failure answers its error class without writing. -/
def xmlToJson (filename : Option String) (w : ExtWorld) :
    Response × List WriteEvent :=
  if strFalsy filename then (.badRequest "Filename is required.", [])
  else if !w.fileExists then
    (.notFound "File not found in uploads directory.", [])
  else
    match w.parsed with
    | .error e => (.serverError "Failed to convert XML to JSON." e, [])
    | .ok raw =>
      (.ok "XML successfully converted to JSON and saved.",
        [.jsonOut (cleanJson raw)])

/-- Translation of the `jsonToCsv` handler (ConverterController.js lines
111-172): validate the filename, locate the file, parse the JSON, select
the optional dotted path, require a truthy selection and then an array,
flatten each element, serialize to CSV, write the CSV file and answer 200;
each failure answers its error class without writing. -/
def jsonToCsv (filename jsonPath : Option String) (w : ExtWorld) :
    Response × List WriteEvent :=
  if strFalsy filename then (.badRequest "Filename is required.", [])
  else if !w.fileExists then
    (.notFound "JSON file not found in exports directory.", [])
  else
    match w.parsed with
    | .error e => (.serverError "Failed to convert JSON to CSV." e, [])
    | .ok jsonData =>
      let dataToConvert :=
        match jsonPath with
        | some p => if p = "" then jsonData else selectPath jsonData p
        | none => jsonData
      if !truthy dataToConvert then (.badRequest (pathMissingMsg jsonPath), [])
      else
        match dataToConvert with
        | .arr xs =>
          match flattenItems xs with
          | .error e => (.serverError "Failed to convert JSON to CSV." e, [])
          | .ok rows =>
            match w.csvSerialize rows with
            | .error e => (.serverError "Failed to convert JSON to CSV." e, [])
            | .ok csvText =>
              (.ok "JSON successfully converted to CSV and saved.",
                [.csvOut csvText])
        | _ => (.badRequest notArrayMsg, [])

/-- Translation of the `convert` handler of the xml-to-csv controller
(src/unnamed/part_001 lines 221-291): the xmlToJson steps through cleaning,
then the jsonToCsv steps from path selection onward, with the path
defaulting to "clearing.operation" when the request has none, and with no
intermediate JSON file write. -/
def xmlToCsv (filename jsonPath : Option String) (w : ExtWorld) :
    Response × List WriteEvent :=
  if strFalsy filename then (.badRequest "Filename is required.", [])
  else if !w.fileExists then (.notFound "File not found in XML directory.", [])
  else
    match w.parsed with
    | .error e => (.serverError "Failed to convert XML to JSON/CSV." e, [])
    | .ok raw =>
      let cleaned := cleanJson raw
      let jp := match jsonPath with
        | none => "clearing.operation"
        | some p => p
      let dataToConvert := selectPath cleaned jp
      if !truthy dataToConvert then
        (.badRequest (pathMissingMsg (some jp)), [])
      else
        match dataToConvert with
        | .arr xs =>
          match flattenItems xs with
          | .error e =>
            (.serverError "Failed to convert XML to JSON/CSV." e, [])
          | .ok rows =>
            match w.csvSerialize rows with
            | .error e =>
              (.serverError "Failed to convert XML to JSON/CSV." e, [])
            | .ok csvText =>
              (.ok "XML successfully converted to JSON and CSV.",
                [.csvOut csvText])
        | _ => (.badRequest notArrayMsg, [])

/-- The value is not a mapping. -/
def notObjB (v : GenericValue) : Bool := !isObjB v

/-- The value is a scalar or null: neither an array nor a mapping. -/
def scalarOnlyB (v : GenericValue) : Bool := !isContainerB v

/-! ### Helper lemmas -/

theorem cleanList_eq_map : ∀ xs : GVList, cleanList xs = GVList.map cleanJson xs
  | .nil => rfl
  | .cons x xs => by rw [cleanList, GVList.map, cleanList_eq_map xs]

theorem cleanEntries_eq :
    ∀ es : GVEntries,
      cleanEntries es = GVEntries.mapVals cleanJson (GVEntries.eraseKey "$" es)
  | .nil => rfl
  | .cons k v es => by
    by_cases h : k = "$"
    · simp [cleanEntries, GVEntries.eraseKey, h, cleanEntries_eq es]
    · simp [cleanEntries, GVEntries.eraseKey, GVEntries.mapVals, h, cleanEntries_eq es]

theorem lookupEntry_setKey :
    ∀ (r : GVEntries) (k : String) (v : GenericValue),
      lookupEntry (setKey r k v) k = some v
  | .nil, k, v => by simp [setKey, lookupEntry]
  | .cons k2 v2 es, k, v => by
    by_cases h : k2 = k
    · simp [setKey, lookupEntry, h]
    · simp [setKey, lookupEntry, h, lookupEntry_setKey es k v]

/-- Claim C1: `cleanJson` satisfies the case analysis of the spec exactly:
a one-element sequence cleans to the recursive cleaning of its element,
any other sequence cleans elementwise in order, a mapping cleans to the
mapping without the "$" entry with every retained value cleaned
recursively, and scalars and null are returned unchanged; the function is
total over all GenericValue inputs. -/
theorem C1_clean_cases :
    (∀ x, cleanJson (.arr (.cons x .nil)) = cleanJson x)
    ∧ (∀ xs : GVList, xs.length ≠ 1 →
        cleanJson (.arr xs) = .arr (GVList.map cleanJson xs))
    ∧ (∀ es, cleanJson (.obj es)
        = .obj (GVEntries.mapVals cleanJson (GVEntries.eraseKey "$" es)))
    ∧ (cleanJson .null = .null)
    ∧ (∀ b, cleanJson (.boolV b) = .boolV b)
    ∧ (∀ n, cleanJson (.num n) = .num n)
    ∧ (∀ s, cleanJson (.str s) = .str s) := by
  refine ⟨fun x => rfl, ?_, ?_, rfl, fun b => rfl, fun n => rfl, fun s => rfl⟩
  · intro xs h
    match xs with
    | .nil => rfl
    | .cons x .nil => exact absurd rfl h
    | .cons x (.cons y ys) =>
      show GenericValue.arr (cleanList (.cons x (.cons y ys))) = _
      rw [cleanList_eq_map]
  · intro es
    show GenericValue.obj (cleanEntries es) = _
    rw [cleanEntries_eq]

/-- Witness for C1 at a two-element sequence. -/
theorem C1_clean_cases_witness :
    cleanJson (.arr (.cons (.num 1) (.cons (.num 2) .nil)))
      = .arr (GVList.map cleanJson (.cons (.num 1) (.cons (.num 2) .nil))) :=
  C1_clean_cases.2.1 (.cons (.num 1) (.cons (.num 2) .nil)) (by decide)

/-- Claim C2: `flattenJson` iterates the entries in order; the new key is
the entry key under an empty parent key and otherwise parent + "/" + key;
an object value is recursed into with the new key as parent, merging into
the shared accumulator with last write winning on collisions; every other
value — scalar, null or array — is bound to the new key unchanged, and in
particular arrays are opaque leaves, as the two closing examples from the
spec show. -/
theorem C2_flatten_cases :
    (∀ pk r, flattenEntries .nil pk r = r)
    ∧ (∀ k inner es pk r,
        flattenEntries (.cons k (.obj inner) es) pk r
          = flattenEntries es pk
              (flattenEntries inner (if pk = "" then k else pk ++ "/" ++ k) r))
    ∧ (∀ k v es pk r, isObjB v = false →
        flattenEntries (.cons k v es) pk r
          = flattenEntries es pk
              (setKey r (if pk = "" then k else pk ++ "/" ++ k) v))
    ∧ (∀ k : String, (if ("" : String) = "" then k else "" ++ "/" ++ k) = k)
    ∧ (∀ pk k : String, pk ≠ "" →
        (if pk = "" then k else pk ++ "/" ++ k) = pk ++ "/" ++ k)
    ∧ (∀ r k v, lookupEntry (setKey r k v) k = some v)
    ∧ flattenMap (.cons "a" (.obj (.cons "b" (.num 1) (.cons "c" (.num 2) .nil))) .nil)
        = .cons "a/b" (.num 1) (.cons "a/c" (.num 2) .nil)
    ∧ flattenMap (.cons "a" (.arr (.cons (.num 1) (.cons (.num 2) (.cons (.num 3) .nil)))) .nil)
        = .cons "a" (.arr (.cons (.num 1) (.cons (.num 2) (.cons (.num 3) .nil)))) .nil := by
  refine ⟨fun pk r => rfl, fun k inner es pk r => rfl, ?_, fun k => rfl, ?_,
    lookupEntry_setKey, rfl, rfl⟩
  · intro k v es pk r h
    match v with
    | .null => rfl
    | .boolV _ => rfl
    | .num _ => rfl
    | .str _ => rfl
    | .arr _ => rfl
    | .obj _ => simp [isObjB] at h
  · intro pk k h
    simp [h]

/-- Witness for C2 at a non-empty parent key and an array leaf. -/
theorem C2_flatten_cases_witness :
    flattenEntries (.cons "b" (.arr .nil) .nil) "a" .nil
      = flattenEntries .nil "a"
          (setKey .nil (if ("a" : String) = "" then "b" else "a" ++ "/" ++ "b") (.arr .nil))
    ∧ (if ("a" : String) = "" then "b" else "a" ++ "/" ++ "b") = "a" ++ "/" ++ "b" :=
  ⟨C2_flatten_cases.2.2.1 "b" (.arr .nil) .nil "a" .nil rfl,
   C2_flatten_cases.2.2.2.2.1 "a" "b" (by decide)⟩

mutual

theorem cleanND_V : ∀ v : GenericValue, noDollarV (cleanJson v) = true
  | .null => rfl
  | .boolV _ => rfl
  | .num _ => rfl
  | .str _ => rfl
  | .arr (.cons x .nil) => cleanND_V x
  | .arr .nil => rfl
  | .arr (.cons x (.cons y ys)) => by
    show noDollarL (cleanList (.cons x (.cons y ys))) = true
    exact cleanND_L (.cons x (.cons y ys))
  | .obj es => by
    show noDollarE (cleanEntries es) = true
    exact cleanND_E es

theorem cleanND_L : ∀ xs : GVList, noDollarL (cleanList xs) = true
  | .nil => rfl
  | .cons x xs => by
    simp [cleanList, noDollarL, cleanND_V x, cleanND_L xs]

theorem cleanND_E : ∀ es : GVEntries, noDollarE (cleanEntries es) = true
  | .nil => rfl
  | .cons k v es => by
    by_cases h : k = "$"
    · simpa [cleanEntries, h] using cleanND_E es
    · simp [cleanEntries, h, noDollarE, cleanND_V v, cleanND_E es]

end

/-- Claim C4: the result of `cleanJson` contains no mapping entry with the
attribute-marker key "$" at any depth, including inside sequences and
nested mappings. -/
theorem C4_clean_no_dollar : ∀ v : GenericValue, noDollarV (cleanJson v) = true :=
  cleanND_V

theorem cleanList_length : ∀ xs : GVList, (cleanList xs).length = xs.length
  | .nil => rfl
  | .cons x xs => by rw [cleanList, GVList.length, GVList.length, cleanList_length xs]

mutual

theorem cleanNS_V : ∀ v : GenericValue, noSingleV (cleanJson v) = true
  | .null => rfl
  | .boolV _ => rfl
  | .num _ => rfl
  | .str _ => rfl
  | .arr (.cons x .nil) => cleanNS_V x
  | .arr .nil => rfl
  | .arr (.cons x (.cons y ys)) => by
    show noSingleV (.arr (cleanList (.cons x (.cons y ys)))) = true
    have h1 := cleanList_length (GVList.cons x (.cons y ys))
    have h2 := cleanNS_L (GVList.cons x (.cons y ys))
    simp [noSingleV, h1, h2, GVList.length]
  | .obj es => by
    show noSingleV (.obj (cleanEntries es)) = true
    exact cleanNS_E es

theorem cleanNS_L : ∀ xs : GVList, noSingleL (cleanList xs) = true
  | .nil => rfl
  | .cons x xs => by
    simp [cleanList, noSingleL, cleanNS_V x, cleanNS_L xs]

theorem cleanNS_E : ∀ es : GVEntries, noSingleE (cleanEntries es) = true
  | .nil => rfl
  | .cons k v es => by
    by_cases h : k = "$"
    · simpa [cleanEntries, h] using cleanNS_E es
    · simp [cleanEntries, h, noSingleE, cleanNS_V v, cleanNS_E es]

end

mutual

theorem cleanFix_V :
    ∀ v : GenericValue, noDollarV v = true → noSingleV v = true → cleanJson v = v
  | .null, _, _ => rfl
  | .boolV _, _, _ => rfl
  | .num _, _, _ => rfl
  | .str _, _, _ => rfl
  | .arr (.cons x .nil), _, h2 => by simp [noSingleV, GVList.length] at h2
  | .arr .nil, _, _ => rfl
  | .arr (.cons x (.cons y ys)), h1, h2 => by
    show GenericValue.arr (cleanList (.cons x (.cons y ys))) = _
    have h2' : noSingleL (GVList.cons x (.cons y ys)) = true := by
      simp [noSingleV] at h2
      exact h2.2
    rw [cleanFix_L (GVList.cons x (.cons y ys)) h1 h2']
  | .obj es, h1, h2 => by
    show GenericValue.obj (cleanEntries es) = _
    rw [cleanFix_E es h1 h2]

theorem cleanFix_L :
    ∀ xs : GVList, noDollarL xs = true → noSingleL xs = true → cleanList xs = xs
  | .nil, _, _ => rfl
  | .cons x xs, h1, h2 => by
    simp [noDollarL] at h1
    simp [noSingleL] at h2
    rw [cleanList, cleanFix_V x h1.1 h2.1, cleanFix_L xs h1.2 h2.2]

theorem cleanFix_E :
    ∀ es : GVEntries, noDollarE es = true → noSingleE es = true → cleanEntries es = es
  | .nil, _, _ => rfl
  | .cons k v es, h1, h2 => by
    simp only [noDollarE, Bool.and_eq_true, bne_iff_ne, ne_eq] at h1
    obtain ⟨⟨hk, hv⟩, he⟩ := h1
    simp only [noSingleE, Bool.and_eq_true] at h2
    obtain ⟨hv2, he2⟩ := h2
    rw [cleanEntries, if_neg hk, cleanFix_V v hv hv2, cleanFix_E es he he2]

end

mutual

theorem cleanCol_V :
    ∀ v : GenericValue, noDollarV v = true → cleanJson v = collapseV v
  | .null, _ => rfl
  | .boolV _, _ => rfl
  | .num _, _ => rfl
  | .str _, _ => rfl
  | .arr (.cons x .nil), h => by
    have hx : noDollarV x = true := by
      simp [noDollarV, noDollarL] at h
      exact h
    show cleanJson x = collapseV x
    exact cleanCol_V x hx
  | .arr .nil, _ => rfl
  | .arr (.cons x (.cons y ys)), h => by
    show GenericValue.arr (cleanList (.cons x (.cons y ys)))
      = .arr (collapseL (.cons x (.cons y ys)))
    rw [cleanCol_L (GVList.cons x (.cons y ys)) h]
  | .obj es, h => by
    show GenericValue.obj (cleanEntries es) = .obj (collapseE es)
    rw [cleanCol_E es h]

theorem cleanCol_L :
    ∀ xs : GVList, noDollarL xs = true → cleanList xs = collapseL xs
  | .nil, _ => rfl
  | .cons x xs, h => by
    simp only [noDollarL, Bool.and_eq_true] at h
    rw [cleanList, collapseL, cleanCol_V x h.1, cleanCol_L xs h.2]

theorem cleanCol_E :
    ∀ es : GVEntries, noDollarE es = true → cleanEntries es = collapseE es
  | .nil, _ => rfl
  | .cons k v es, h => by
    simp only [noDollarE, Bool.and_eq_true, bne_iff_ne, ne_eq] at h
    obtain ⟨⟨hk, hv⟩, he⟩ := h
    rw [cleanEntries, if_neg hk, collapseE, cleanCol_V v hv, cleanCol_E es he]

end

/-- Claim C6: `cleanJson` is idempotent on every value; on a value free of
the "$" key it acts as the pure collapse of single-element sequences, and
on a value that in addition has no single-element sequence anywhere it is
the identity. -/
theorem C6_clean_idempotent :
    (∀ v, cleanJson (cleanJson v) = cleanJson v)
    ∧ (∀ v, noDollarV v = true → cleanJson v = collapseV v)
    ∧ (∀ v, noDollarV v = true → noSingleV v = true → cleanJson v = v) :=
  ⟨fun v => cleanFix_V (cleanJson v) (cleanND_V v) (cleanNS_V v),
   cleanCol_V, cleanFix_V⟩

/-- Witness for C6 at a small dollar-free object. -/
theorem C6_clean_idempotent_witness :
    cleanJson (.obj (.cons "a" (.num 1) .nil)) = collapseV (.obj (.cons "a" (.num 1) .nil))
    ∧ cleanJson (.obj (.cons "a" (.num 1) .nil)) = .obj (.cons "a" (.num 1) .nil) :=
  ⟨C6_clean_idempotent.2.1 (.obj (.cons "a" (.num 1) .nil)) rfl,
   C6_clean_idempotent.2.2 (.obj (.cons "a" (.num 1) .nil)) rfl rfl⟩

theorem allVals_setKey (p : GenericValue → Bool) :
    ∀ (r : GVEntries) (k : String) (v : GenericValue),
      allVals p r = true → p v = true → allVals p (setKey r k v) = true
  | .nil, k, v, _, hv => by simp [setKey, allVals, hv]
  | .cons k2 v2 es, k, v, hr, hv => by
    simp only [allVals, Bool.and_eq_true] at hr
    by_cases h : k2 = k
    · simp [setKey, h, allVals, hv, hr.2]
    · simp [setKey, h, allVals, hr.1, allVals_setKey p es k v hr.2 hv]

mutual

theorem flatNO_E : ∀ (es : GVEntries) (pk : String) (r : GVEntries),
    allVals notObjB r = true → allVals notObjB (flattenEntries es pk r) = true
  | .nil, _, _, hr => hr
  | .cons k v es, pk, r, hr =>
    flatNO_E es pk _ (flatNO_S v (if pk = "" then k else pk ++ "/" ++ k) r hr)

theorem flatNO_S : ∀ (v : GenericValue) (nk : String) (r : GVEntries),
    allVals notObjB r = true → allVals notObjB (flattenStep v nk r) = true
  | .obj inner, nk, r, hr => flatNO_E inner nk r hr
  | .null, nk, r, hr => allVals_setKey notObjB r nk _ hr rfl
  | .boolV _, nk, r, hr => allVals_setKey notObjB r nk _ hr rfl
  | .num _, nk, r, hr => allVals_setKey notObjB r nk _ hr rfl
  | .str _, nk, r, hr => allVals_setKey notObjB r nk _ hr rfl
  | .arr _, nk, r, hr => allVals_setKey notObjB r nk _ hr rfl

end

/-- Counterexample to claim C5 as stated: flattening the mapping
`{"a": [1,2,3]}` binds the key "a" to the array itself, a container value,
so not every value in a flattened result is a scalar. -/
theorem C5_flatten_scalar_cex :
    flattenMap (.cons "a" (.arr (.cons (.num 1) (.cons (.num 2) (.cons (.num 3) .nil)))) .nil)
      = .cons "a" (.arr (.cons (.num 1) (.cons (.num 2) (.cons (.num 3) .nil)))) .nil
    ∧ allVals scalarOnlyB
        (flattenMap (.cons "a" (.arr (.cons (.num 1) (.cons (.num 2) (.cons (.num 3) .nil)))) .nil))
      = false :=
  ⟨rfl, rfl⟩

/-- Claim C5 as amended: no value in the result of `flattenJson` on a
mapping is itself a mapping — every flattened key is bound to a scalar,
null, or an array passed through as an opaque leaf. -/
theorem C5_flatten_no_mapping :
    ∀ es : GVEntries, allVals notObjB (flattenMap es) = true :=
  fun es => flatNO_E es "" .nil rfl

theorem foldl_selectGo :
    ∀ (segs : List String) (acc : GenericValue),
      segs.foldl selectStep acc = selectGo acc segs
  | [], _ => rfl
  | k :: rest, acc => by
    show rest.foldl selectStep (selectStep acc k) = selectGo acc (k :: rest)
    rw [foldl_selectGo rest (selectStep acc k)]
    cases ht : truthy acc
    · simp [selectGo, selectStep, ht]
    · cases hg : getProp acc k
      · simp [selectGo, selectStep, ht, hg]
      · simp [selectGo, selectStep, ht, hg]

/-- Counterexample to claim C3 as stated: on `{"a": [[1],[2]]}` with path
"a.0" the code descends into the array by numeric index — `acc["0"]` on a
JavaScript array reads element 0 — and returns `[1]`, while the claim,
which allows descent only through mappings, requires the result to be
absent. -/
theorem C3_select_mapping_cex :
    selectPath
        (.obj (.cons "a"
          (.arr (.cons (.arr (.cons (.num 1) .nil))
            (.cons (.arr (.cons (.num 2) .nil)) .nil))) .nil))
        "a.0"
      = .arr (.cons (.num 1) .nil)
    ∧ claimSelect
        (.obj (.cons "a"
          (.arr (.cons (.arr (.cons (.num 1) .nil))
            (.cons (.arr (.cons (.num 2) .nil)) .nil))) .nil))
        "a.0"
      = .null
    ∧ selectPath
        (.obj (.cons "a"
          (.arr (.cons (.arr (.cons (.num 1) .nil))
            (.cons (.arr (.cons (.num 2) .nil)) .nil))) .nil))
        "a.0"
      ≠ claimSelect
          (.obj (.cons "a"
            (.arr (.cons (.arr (.cons (.num 1) .nil))
              (.cons (.arr (.cons (.num 2) .nil)) .nil))) .nil))
          "a.0" :=
  ⟨rfl, rfl, fun h => GenericValue.noConfusion h⟩

/-- Claim C3 as amended: the selection folds over the dot-separated
segments; at each step it descends when the current value is truthy and
JavaScript property access — mapping key lookup, array canonical index or
length, string index or length — yields a truthy value, and otherwise the
walk collapses to null (absent); the spec examples hold, and a present
falsy value such as 0 is indistinguishable from an absent path. -/
theorem C3_select_amended :
    (∀ root path, selectPath root path = selectGo root (splitDots path))
    ∧ selectPath
        (.obj (.cons "a" (.obj (.cons "b" (.obj (.cons "c" (.num 42) .nil)) .nil)) .nil))
        "a.b.c" = .num 42
    ∧ selectPath (.obj (.cons "a" (.obj .nil) .nil)) "a.b.c" = .null
    ∧ selectPath (.obj (.cons "a" (.num 0) .nil)) "a" = .null :=
  ⟨fun root path => foldl_selectGo (splitDots path) root, rfl, rfl, rfl⟩

theorem x2j_ok_or_silent :
    ∀ (fn : Option String) (w : ExtWorld),
      (xmlToJson fn w).1.isOk = true ∨ (xmlToJson fn w).2 = [] := by
  intro fn w
  unfold xmlToJson
  split
  · exact Or.inr rfl
  split
  · exact Or.inr rfl
  split
  · exact Or.inr rfl
  · exact Or.inl rfl

theorem j2c_ok_or_silent :
    ∀ (fn jp : Option String) (w : ExtWorld),
      (jsonToCsv fn jp w).1.isOk = true ∨ (jsonToCsv fn jp w).2 = [] := by
  intro fn jp w
  unfold jsonToCsv
  split
  · exact Or.inr rfl
  split
  · exact Or.inr rfl
  split
  · exact Or.inr rfl
  dsimp only
  split
  · exact Or.inr rfl
  split
  · split
    · exact Or.inr rfl
    split
    · exact Or.inr rfl
    · exact Or.inl rfl
  · exact Or.inr rfl

theorem x2c_ok_or_silent :
    ∀ (fn jp : Option String) (w : ExtWorld),
      (xmlToCsv fn jp w).1.isOk = true ∨ (xmlToCsv fn jp w).2 = [] := by
  intro fn jp w
  unfold xmlToCsv
  split
  · exact Or.inr rfl
  split
  · exact Or.inr rfl
  split
  · exact Or.inr rfl
  dsimp only
  split
  · exact Or.inr rfl
  split
  · split
    · exact Or.inr rfl
    split
    · exact Or.inr rfl
    · exact Or.inl rfl
  · exact Or.inr rfl

/-- Claim C9: whenever one of the three handlers answers an error response
(400, 404 or 500), its write list is empty — the single output write of
each pipeline happens only after every prior stage has succeeded. -/
theorem C9_no_write_on_error :
    (∀ fn w, (xmlToJson fn w).1.isOk = false → (xmlToJson fn w).2 = [])
    ∧ (∀ fn jp w, (jsonToCsv fn jp w).1.isOk = false → (jsonToCsv fn jp w).2 = [])
    ∧ (∀ fn jp w, (xmlToCsv fn jp w).1.isOk = false → (xmlToCsv fn jp w).2 = []) := by
  refine ⟨fun fn w h => ?_, fun fn jp w h => ?_, fun fn jp w h => ?_⟩
  · rcases x2j_ok_or_silent fn w with hok | hw
    · rw [h] at hok
      exact absurd hok (by simp)
    · exact hw
  · rcases j2c_ok_or_silent fn jp w with hok | hw
    · rw [h] at hok
      exact absurd hok (by simp)
    · exact hw
  · rcases x2c_ok_or_silent fn jp w with hok | hw
    · rw [h] at hok
      exact absurd hok (by simp)
    · exact hw

/-- Witness for C9: a request with a missing input file writes nothing. -/
theorem C9_no_write_on_error_witness :
    (xmlToJson (some "f.xml") ⟨false, .error "boom", fun _ => .ok ""⟩).2 = [] :=
  C9_no_write_on_error.1 (some "f.xml") ⟨false, .error "boom", fun _ => .ok ""⟩ rfl

/-- Claim C10: when jsonToCsv gets no jsonPath and the parsed file value is
falsy, the handler answers the missing-path 400 with the unsupplied path
rendered as the text "undefined", not the not-an-array 400. -/
theorem C10_falsy_whole_file :
    ∀ (fn : String) (w : ExtWorld) (data : GenericValue),
      fn ≠ "" → w.fileExists = true → w.parsed = .ok data → truthy data = false →
      jsonToCsv (some fn) none w
        = (.badRequest "The specified JSON path 'undefined' does not exist.", []) := by
  intro fn w data hfn hex hp ht
  simp [jsonToCsv, strFalsy, hfn, hex, hp, ht, pathMissingMsg]

/-- Witness for C10: a parsed null file value with no path supplied. -/
theorem C10_falsy_whole_file_witness :
    jsonToCsv (some "d.json") none ⟨true, .ok .null, fun _ => .ok ""⟩
      = (.badRequest "The specified JSON path 'undefined' does not exist.", []) :=
  C10_falsy_whole_file "d.json" ⟨true, .ok .null, fun _ => .ok ""⟩ .null
    (by decide) rfl rfl rfl

/-- Claim C7: in jsonToCsv and in the selection stage of xmlToCsv, a given
path whose selection is absent yields the 400 response citing the path, and
a truthy selected value (or, with no path, the whole parsed value) that is
not an array yields the 400 not-an-array response; both are structured
responses of the total handler functions, never a fault. -/
theorem C7_validation_errors :
    ∀ (fn p : String) (w : ExtWorld) (data : GenericValue),
      fn ≠ "" → w.fileExists = true → w.parsed = .ok data →
      ((p ≠ "" → truthy (selectPath data p) = false →
          jsonToCsv (some fn) (some p) w
            = (.badRequest ("The specified JSON path '" ++ p ++ "' does not exist."), []))
      ∧ (p ≠ "" → truthy (selectPath data p) = true →
          isArrB (selectPath data p) = false →
          jsonToCsv (some fn) (some p) w = (.badRequest notArrayMsg, []))
      ∧ (truthy data = true → isArrB data = false →
          jsonToCsv (some fn) none w = (.badRequest notArrayMsg, []))
      ∧ (truthy (selectPath (cleanJson data) p) = false →
          xmlToCsv (some fn) (some p) w
            = (.badRequest ("The specified JSON path '" ++ p ++ "' does not exist."), []))
      ∧ (truthy (selectPath (cleanJson data) p) = true →
          isArrB (selectPath (cleanJson data) p) = false →
          xmlToCsv (some fn) (some p) w = (.badRequest notArrayMsg, []))) := by
  intro fn p w data hfn hex hp
  refine ⟨?_, ?_, ?_, ?_, ?_⟩
  · intro hpne hsel
    simp [jsonToCsv, strFalsy, hfn, hex, hp, hpne, hsel, pathMissingMsg]
  · intro hpne htr harr
    rcases hs : selectPath data p with _ | b | n | s | xs | es
    · rw [hs] at htr
      simp [truthy] at htr
    · rw [hs] at htr
      simp [jsonToCsv, strFalsy, hfn, hex, hp, hpne, hs, htr]
    · rw [hs] at htr
      simp [jsonToCsv, strFalsy, hfn, hex, hp, hpne, hs, htr]
    · rw [hs] at htr
      simp [jsonToCsv, strFalsy, hfn, hex, hp, hpne, hs, htr]
    · rw [hs] at harr
      simp [isArrB] at harr
    · rw [hs] at htr
      simp [jsonToCsv, strFalsy, hfn, hex, hp, hpne, hs, htr]
  · intro htr harr
    rcases hs : data with _ | b | n | s | xs | es
    · rw [hs] at htr
      simp [truthy] at htr
    · subst hs
      simp [jsonToCsv, strFalsy, hfn, hex, hp, htr]
    · subst hs
      simp [jsonToCsv, strFalsy, hfn, hex, hp, htr]
    · subst hs
      simp [jsonToCsv, strFalsy, hfn, hex, hp, htr]
    · rw [hs] at harr
      simp [isArrB] at harr
    · subst hs
      simp [jsonToCsv, strFalsy, hfn, hex, hp, htr]
  · intro hsel
    simp [xmlToCsv, strFalsy, hfn, hex, hp, hsel, pathMissingMsg]
  · intro htr harr
    rcases hs : selectPath (cleanJson data) p with _ | b | n | s | xs | es
    · rw [hs] at htr
      simp [truthy] at htr
    · rw [hs] at htr
      simp [xmlToCsv, strFalsy, hfn, hex, hp, hs, htr]
    · rw [hs] at htr
      simp [xmlToCsv, strFalsy, hfn, hex, hp, hs, htr]
    · rw [hs] at htr
      simp [xmlToCsv, strFalsy, hfn, hex, hp, hs, htr]
    · rw [hs] at harr
      simp [isArrB] at harr
    · rw [hs] at htr
      simp [xmlToCsv, strFalsy, hfn, hex, hp, hs, htr]

/-- Witness for C7: a truthy non-array selection answers the not-an-array
400. -/
theorem C7_validation_errors_witness :
    jsonToCsv (some "f.json") (some "a")
        ⟨true, .ok (.obj (.cons "a" (.num 1) .nil)), fun _ => .ok ""⟩
      = (.badRequest notArrayMsg, []) :=
  (C7_validation_errors "f.json" "a"
      ⟨true, .ok (.obj (.cons "a" (.num 1) .nil)), fun _ => .ok ""⟩
      (.obj (.cons "a" (.num 1) .nil)) (by decide) rfl rfl).2.1
    (by decide) rfl rfl

/-- Claim C8: with no jsonPath in the request, xmlToCsv behaves exactly as
with the default path expression "clearing.operation"; its write list never
contains a JSON-directory write; and on a fully successful run it performs
parse, clean, selection at the default path, per-element flattening and CSV
serialization, writing exactly the produced CSV text. -/
theorem C8_xmlToCsv_default_path :
    (∀ fn w, xmlToCsv fn none w = xmlToCsv fn (some "clearing.operation") w)
    ∧ (∀ fn jp w, ((xmlToCsv fn jp w).2.all fun e => !e.isJsonOut) = true)
    ∧ (∀ (fn : String) (w : ExtWorld) (raw : GenericValue) (xs : GVList)
        (rows : List GVEntries) (csvText : String),
        fn ≠ "" → w.fileExists = true → w.parsed = .ok raw →
        selectPath (cleanJson raw) "clearing.operation" = .arr xs →
        flattenItems xs = .ok rows → w.csvSerialize rows = .ok csvText →
        xmlToCsv (some fn) none w
          = (.ok "XML successfully converted to JSON and CSV.", [.csvOut csvText])) := by
  refine ⟨fun fn w => rfl, ?_, ?_⟩
  · intro fn jp w
    unfold xmlToCsv
    split
    · rfl
    split
    · rfl
    split
    · rfl
    dsimp only
    split
    · rfl
    split
    · split
      · rfl
      split
      · rfl
      · rfl
    · rfl
  · intro fn w raw xs rows csvText hfn hex hp hsel hrows hcsv
    simp [xmlToCsv, strFalsy, hfn, hex, hp, hsel, hrows, hcsv, truthy]

/-- Witness for C8: a successful default-path run over a two-row document. -/
theorem C8_xmlToCsv_default_path_witness :
    xmlToCsv (some "f.xml") none
        ⟨true,
         .ok (.obj (.cons "clearing"
           (.obj (.cons "operation"
             (.arr (.cons (.obj (.cons "a" (.num 1) .nil))
               (.cons (.obj (.cons "a" (.num 2) .nil)) .nil))) .nil)) .nil)),
         fun _ => .ok "a\n1\n2"⟩
      = (.ok "XML successfully converted to JSON and CSV.", [.csvOut "a\n1\n2"]) :=
  C8_xmlToCsv_default_path.2.2 "f.xml"
    ⟨true,
     .ok (.obj (.cons "clearing"
       (.obj (.cons "operation"
         (.arr (.cons (.obj (.cons "a" (.num 1) .nil))
           (.cons (.obj (.cons "a" (.num 2) .nil)) .nil))) .nil)) .nil)),
     fun _ => .ok "a\n1\n2"⟩
    (.obj (.cons "clearing"
      (.obj (.cons "operation"
        (.arr (.cons (.obj (.cons "a" (.num 1) .nil))
          (.cons (.obj (.cons "a" (.num 2) .nil)) .nil))) .nil)) .nil))
    (.cons (.obj (.cons "a" (.num 1) .nil))
      (.cons (.obj (.cons "a" (.num 2) .nil)) .nil))
    [GVEntries.cons "a" (.num 1) .nil, GVEntries.cons "a" (.num 2) .nil]
    "a\n1\n2" (by decide) rfl rfl rfl rfl rfl
